import Mathlib

/-!
Shallow embedding of `DIRAC/WorkloadManagementSystem/Client/SandboxStoreClient.py`.

Strings are modelled as `List Char` (`Str`), file contents as `List Nat`
(byte lists).  External effects (filesystem, network transfer, RPC) are
modelled by explicit environment records of abstract functions, and each
operation returns, next to its Python result dictionary (`SRes`), the ordered
trace of side effects it performed (`List Eff`).
-/

namespace SandboxStore

/-- Strings of the Python source, modelled as lists of characters. -/
abbrev Str := List Char

/-- Byte strings (file contents, archive bytes). -/
abbrev Bytes := List Nat

/-- Shorthand turning a Lean string literal into the `Str` model. -/
def strL (s : String) : Str := s.data

/-- Value slot of a DIRAC return dictionary: `S_OK` can carry nothing, a
string, raw bytes, a number (extracted size) or a list of such values. -/
inductive RVal where
  | nothing
  | strv (s : Str)
  | bytesv (b : Bytes)
  | numv (n : Nat)
  | listv (l : List RVal)

/-- A DIRAC return dictionary: `OK` flag, `Message` on error, `Value` on
success, plus the extra `SandboxFileName` key set by `uploadFilesAsSandbox`. -/
structure SRes where
  ok : Bool
  message : Str
  value : RVal
  sandboxFileName : Option Str

/-- `S_OK(value)` -/
def sOK (v : RVal) : SRes := { ok := true, message := [], value := v, sandboxFileName := none }

/-- `S_ERROR(message)` -/
def sError (m : Str) : SRes := { ok := false, message := m, value := RVal.nothing, sandboxFileName := none }

/-- Side effects an operation can perform, in order. -/
inductive Eff where
  | mkstemp (path : Str)
  | writeArchive (path : Str) (bytes : Bytes)
  | sendF (localPath : Str) (name : Str) (assign : List (Str × Str))
  | unlink (path : Str)
  | mkdtemp (path : Str)
  | seGetFile (seName : Str) (pfn : Str) (localDir : Str)
  | readFile (path : Str)
  | mkdir (path : Str)
  | extractArchive (path : Str) (dest : Str)
  | rmdir (path : Str)
  | smdbAssign (eId : Str) (sbList : List (Str × Str)) (ownerName ownerGroup : Str)
  | rpcAssign (eId : Str) (sbList : List (Str × Str)) (ownerName ownerGroup : Str)
deriving DecidableEq

/-- An element of `fileList`: a Python string, a `StringIO` buffer, or an
object of any other type (modelled by the text its `repr`/`type` prints). -/
inductive SFile where
  | fstr (s : Str)
  | fmem (buf : Str)
  | fobj (tyName : Str)
deriving DecidableEq

/-- One contribution to the tar archive: a filesystem path added under an
in-archive name (its recursive content abstracted as a byte tree), or the
in-memory `jobDescription.xml` member. -/
inductive TarItem where
  | pathItem (arcname : Str) (tree : Bytes)
  | memItem (name : Str) (bytes : Bytes)
deriving DecidableEq

/-- The content-determined part of the world: what the filesystem holds and
the deterministic library functions (tar+bz2 serialization, md5 compression,
hex printing, utf-8 encoding).  Two runs over identical byte content share
this record. -/
structure FSContent where
  pathExists : Str → Bool
  realpath : Str → Str
  treeBytes : Str → Bytes
  encode : Str → Bytes
  tarBz2 : List TarItem → Bytes
  md5Step : Nat → Nat → Nat
  md5Init : Nat
  md5Hex : Nat → Str

/-- The run-specific part of the world for an upload: the temp-file
allocator (`tempfile.mkstemp`, failing with the exception text), the
transfer client and whether `os.unlink` raises `OSError`. -/
structure UpWorld where
  tmpAlloc : Except Str Str
  send : Str → Str → List (Str × Str) → SRes
  unlinkFails : Str → Bool

/-- The two legal sandbox types (`__validSandboxTypes`). -/
def validSandboxTypes : List Str := [strL "Input", strL "Output"]

/-- `re.search("^lfn:", s, flags=re.IGNORECASE)`: the string starts with the
four characters `lfn:` in any letter case. -/
def isLfn (s : Str) : Bool := (s.take 4).map Char.toLower = strL "lfn:"

/-- `os.path.basename`: everything after the last slash. -/
def basename (s : Str) : Str := (s.reverse.takeWhile (· ≠ '/')).reverse

/-- `sep.join(l)` for a separator string. -/
def joinStr (sep : Str) : List Str → Str
  | [] => []
  | [s] => s
  | s :: t :: rest => s ++ sep ++ joinStr sep (t :: rest)

/-- The validation loop over `assignTo` / `sbList`: returns the first type
value not in `validSandboxTypes`, if any. -/
def checkTypes : List (Str × Str) → Option Str
  | [] => none
  | kv :: rest => if validSandboxTypes.contains kv.2 then checkTypes rest else some kv.2

/-- The first loop of `uploadFilesAsSandbox` (lines 102-115): classify each
element into `files2Upload` and `errorFiles`, skipping LFN strings, and
fail on any element of unsupported type. -/
def scanFiles (fs : FSContent) : List SFile → Except Str (List SFile × List Str)
  | [] => Except.ok ([], [])
  | SFile.fstr s :: rest =>
    if isLfn s then scanFiles fs rest
    else if fs.pathExists s then
      (scanFiles fs rest).map fun p => (SFile.fstr s :: p.1, p.2)
    else
      (scanFiles fs rest).map fun p => (p.1, s :: p.2)
  | SFile.fmem b :: rest =>
    (scanFiles fs rest).map fun p => (SFile.fmem b :: p.1, p.2)
  | SFile.fobj ty :: _ =>
    Except.error (strL "Objects of type " ++ ty ++ strL " can" ++ [Char.ofNat 39] ++ strL "t be part of InputSandbox")

/-- The tar-building loop (lines 126-136): a path is added under its base
name with content resolved through `os.path.realpath`; a `StringIO` buffer
becomes the `jobDescription.xml` member with its encoded bytes. -/
def mkEntries (fs : FSContent) : List SFile → Except Str (List TarItem)
  | [] => Except.ok []
  | SFile.fstr s :: rest =>
    (mkEntries fs rest).map (TarItem.pathItem (basename s) (fs.treeBytes (fs.realpath s)) :: ·)
  | SFile.fmem b :: rest =>
    (mkEntries fs rest).map (TarItem.memItem (strL "jobDescription.xml") (fs.encode b) :: ·)
  | SFile.fobj ty :: _ => Except.error (strL "Unknown type to upload: " ++ ty)

/-- The md5 streaming loop (lines 146-150): read the archive in fixed
10240-byte chunks and feed each chunk to the hash state, modelled as a fold
of the per-byte compression step over the chunk. -/
def md5Loop (step : Nat → Nat → Nat) (st : Nat) (bytes : Bytes) : Nat :=
  match bytes with
  | [] => st
  | b :: rest =>
    md5Loop step (((b :: rest).take 10240).foldl step st) ((b :: rest).drop 10240)
termination_by bytes.length
decreasing_by simp; omega

/-- The canonical remote name derived from the archive bytes:
`<md5-hexdigest>.tar.bz2`. -/
def canonicalName (fs : FSContent) (archive : Bytes) : Str :=
  fs.md5Hex (md5Loop fs.md5Step fs.md5Init archive) ++ strL ".tar.bz2"

/-- `SandboxStoreClient.uploadFilesAsSandbox` (lines 78-160), returning the
DIRAC result dictionary together with the ordered trace of side effects. -/
def uploadFilesAsSandbox (fs : FSContent) (w : UpWorld) (fileList : List SFile)
    (sizeLimit : Nat) (assignTo : List (Str × Str)) : SRes × List Eff :=
  match checkTypes assignTo with
  | some t => (sError (strL "Invalid sandbox type " ++ t), [])
  | none =>
  match scanFiles fs fileList with
  | Except.error m => (sError m, [])
  | Except.ok (files2Upload, errorFiles) =>
  if errorFiles ≠ [] then
    (sError (strL "Failed to locate files: " ++ joinStr (strL ", ") errorFiles), [])
  else
  match w.tmpAlloc with
  | Except.error e => (sError (strL "Cannot create temporary file: " ++ e), [])
  | Except.ok tmpFilePath =>
  match mkEntries fs files2Upload with
  | Except.error m => (sError m, [Eff.mkstemp tmpFilePath])
  | Except.ok entries =>
  let archive := fs.tarBz2 entries
  let effs := [Eff.mkstemp tmpFilePath, Eff.writeArchive tmpFilePath archive]
  if 0 < sizeLimit ∧ sizeLimit < archive.length then
    ({ sError (strL "Size over the limit") with sandboxFileName := some tmpFilePath }, effs)
  else
    let name := canonicalName fs archive
    let res := { w.send tmpFilePath name assignTo with sandboxFileName := some tmpFilePath }
    let effs := effs ++ [Eff.sendF tmpFilePath name assignTo]
    if res.ok ∧ ¬ w.unlinkFails tmpFilePath then (res, effs ++ [Eff.unlink tmpFilePath])
    else (res, effs)

/-- The canonical names handed to `sendFile` in an effect trace. -/
def sentNames (effs : List Eff) : List Str :=
  effs.filterMap fun e =>
    match e with
    | Eff.sendF _ n _ => some n
    | _ => none

/-- Python `s.startswith(pat)` on the character-list model. -/
def startsWith (pat s : Str) : Bool := s.take pat.length = pat

/-- Python `s.find(pat)`: index of the first occurrence, `-1` if absent. -/
def strFind (pat : Str) : Str → Int
  | [] => if startsWith pat [] then 0 else -1
  | c :: rest =>
    if startsWith pat (c :: rest) then 0
    else
      let r := strFind pat rest
      if r < 0 then r else r + 1

/-- Python `s.split(sep)` for a one-character separator: always nonempty,
keeps empty fields. -/
def pySplit (sep : Char) : Str → List Str
  | [] => [[]]
  | c :: rest =>
    match pySplit sep rest with
    | [] => [[]]
    | h :: t => if c = sep then [] :: h :: t else (c :: h) :: t

/-- The location parse performed at the top of `downloadSandbox`
(lines 169-176): require the literal `SB:` at position 0, split the
remainder on the bar, require at least two fields; the backend identifier is
the first field and the physical name is the bar-join of the rest. -/
def parseSBLocation (sbLocation : Str) : Except Str (Str × Str) :=
  if strFind (strL "SB:") sbLocation ≠ 0 then Except.error (strL "Invalid sandbox URL")
  else
    let sbSplit := pySplit '|' (sbLocation.drop 3)
    if sbSplit.length < 2 then Except.error (strL "Invalid sandbox URL")
    else Except.ok (sbSplit.headI, joinStr (strL "|") sbSplit.tail)

/-- The run-specific world for a download: the temp-dir allocator
(`tempfile.mkdtemp`), the storage-element fetch (success flag and error
message), the raw read of the fetched archive, the current working
directory, the tar extraction (error text or total extracted size) and
whether the final best-effort cleanup raises `OSError`. -/
structure DlWorld where
  mkdtemp : Except Str Str
  getFile : Str → Str → Str → Bool × Str
  readBytes : Str → Except Str Bytes
  cwd : Str
  extractTar : Str → Str → Except Str Nat
  cleanupFails : Bool

/-- `SandboxStoreClient.downloadSandbox` (lines 165-233), returning the
DIRAC result dictionary together with the ordered trace of side effects. -/
def downloadSandbox (w : DlWorld) (sbLocation : Str) (destinationDir : Str)
    (inMemory : Bool) (unpack : Bool) : SRes × List Eff :=
  match parseSBLocation sbLocation with
  | Except.error m => (sError m, [])
  | Except.ok (seName, sePFN) =>
  match w.mkdtemp with
  | Except.error e => (sError (strL "Cannot create temporary file: " ++ e), [])
  | Except.ok tmpSBDir =>
  let g := w.getFile seName sePFN tmpSBDir
  let effs := [Eff.mkdtemp tmpSBDir, Eff.seGetFile seName sePFN tmpSBDir]
  if ¬ g.1 then (sError g.2, effs)
  else
  let tarFileName := tmpSBDir ++ '/' :: basename sePFN
  if inMemory then
    let effs := effs ++ [Eff.readFile tarFileName, Eff.unlink tarFileName, Eff.rmdir tmpSBDir]
    match w.readBytes tarFileName with
    | Except.ok data => (sOK (RVal.bytesv data), effs)
    | Except.error e => (sError (strL "Failed to read the sandbox archive: " ++ e), effs)
  else
  let dDir := if destinationDir = [] then w.cwd else destinationDir
  let effs := if destinationDir = [] then effs else effs ++ [Eff.mkdir dDir]
  if ¬ unpack then (sOK (RVal.strv tarFileName), effs)
  else
    let effs := effs ++ [Eff.extractArchive tarFileName dDir]
    let res :=
      match w.extractTar tarFileName dDir with
      | Except.ok sandboxSize => sOK (RVal.numv sandboxSize)
      | Except.error e => sError (strL "Could not open bundle: " ++ e)
    if w.cleanupFails then (res, effs)
    else (res, effs ++ [Eff.unlink tarFileName, Eff.rmdir tmpSBDir])

/-- `SandboxStoreClient.assignSandboxesToJob` (lines 238-250): validate
every relation type, then serve the call through the direct metadata handle
when it is configured and both owner fields are supplied, otherwise through
the remote service. -/
structure AsgWorld where
  smdbActive : Bool
  smdbAssignRes : Str → List (Str × Str) → Str → Str → SRes
  rpcAssignRes : Str → List (Str × Str) → Str → Str → SRes

def assignSandboxesToJob (w : AsgWorld) (jobId : Nat) (sbList : List (Str × Str))
    (ownerName ownerGroup : Str) : SRes × List Eff :=
  let eId := strL "Job:" ++ strL (Nat.repr jobId)
  match checkTypes sbList with
  | some t => (sError (strL "Invalid Sandbox type " ++ t), [])
  | none =>
    if w.smdbActive ∧ ownerName ≠ [] ∧ ownerGroup ≠ [] then
      (w.smdbAssignRes eId sbList ownerName ownerGroup,
        [Eff.smdbAssign eId sbList ownerName ownerGroup])
    else
      (w.rpcAssignRes eId sbList ownerName ownerGroup,
        [Eff.rpcAssign eId sbList ownerName ownerGroup])

/-- The error message built by `downloadSandboxForJob` when the entity
resolves but carries no sandbox of the requested type. -/
def noSandboxMsg (sbType : Str) (jobId : Nat) : Str :=
  strL "No " ++ sbType ++ strL " sandbox found for job " ++ strL (Nat.repr jobId) ++
    strL ". Possible causes are: the job does not exist, no sandbox was registered or you do not have permission to access it."

/-- The per-descriptor download loop of `downloadSandboxForJob`
(lines 280-286): fetch each descriptor in order, fail fast on the first
error, otherwise collect the values; also returns the descriptors fetched. -/
def consVal (v : RVal) (res : SRes) : SRes :=
  match res.ok, res.value with
  | true, RVal.listv l => { res with value := RVal.listv (v :: l) }
  | _, _ => res

def dlLoop (dl : Str → SRes) : List Str → SRes × List Str
  | [] => (sOK (RVal.listv []), [])
  | d :: rest =>
    let r := dl d
    if r.ok then
      let p := dlLoop dl rest
      (consVal r.value p.1, d :: p.2)
    else (r, [d])

/-- `SandboxStoreClient.downloadSandboxForJob` (lines 261-286).  The remote
`getSandboxesAssignedToEntity` call is the abstract `rpcGet`; the nested
`downloadSandbox` call (with its fixed destination/inMemory/unpack
arguments) is the abstract `dl`.  Returns the result and the ordered list of
descriptors actually fetched.  Python indexes `sbDict[sbType][-1]`, which
raises an uncaught `IndexError` on an empty list; that exception is modelled
as a distinguished error result. -/
def downloadSandboxForJob (rpcGet : Str → Except Str (List (Str × List Str)))
    (dl : Str → SRes) (jobId : Nat) (sbType : Str) (inMemory : Bool) : SRes × List Str :=
  match rpcGet (strL "Job:" ++ strL (Nat.repr jobId)) with
  | Except.error m => (sError m, [])
  | Except.ok sbDict =>
  match sbDict.lookup sbType with
  | none => (sError (noSandboxMsg sbType jobId), [])
  | some locs =>
  if inMemory then
    match locs.getLast? with
    | some last => (dl last, [last])
    | none => (sError (strL "IndexError: list index out of range"), [])
  else dlLoop dl locs

/-- Modelled from the spec: the remote `getSandboxesAssignedToEntity`
operation of the SandboxStore service (its implementation is not part of the
sources in scope; only the client caller is).  Per the spec, resolving a
nonexistent entity is the distinguished error "entity not found", while an
existing entity yields its mapping from sandbox type to the ordered
descriptor list. -/
def getSandboxesAssignedToEntity (registry : List (Str × List (Str × List Str)))
    (eId : Str) : Except Str (List (Str × List Str)) :=
  match registry.lookup eId with
  | none => Except.error (strL "Entity not found")
  | some d => Except.ok d

/-- The string entries of `fileList` that are neither LFNs nor present on
disk: the paths collected into `errorFiles` by the scan loop. -/
def missingOf (fs : FSContent) (l : List SFile) : List Str :=
  l.filterMap fun f =>
    match f with
    | SFile.fstr s => if isLfn s ∨ fs.pathExists s then none else some s
    | _ => none

/-- The entries collected into `files2Upload` by the scan loop. -/
def files2UploadOf (fs : FSContent) (l : List SFile) : List SFile :=
  l.filterMap fun f =>
    match f with
    | SFile.fstr s =>
      if isLfn s then none
      else if fs.pathExists s then some (SFile.fstr s) else none
    | SFile.fmem b => some (SFile.fmem b)
    | SFile.fobj _ => none

theorem md5Loop_eq_foldl_aux (step : Nat → Nat → Nat) :
    ∀ n (bytes : Bytes), bytes.length ≤ n → ∀ st, md5Loop step st bytes = bytes.foldl step st := by
  intro n
  induction n with
  | zero =>
    intro bytes h st
    have hb : bytes = [] := List.length_eq_zero.mp (Nat.le_zero.mp h)
    subst hb
    simp [md5Loop]
  | succ n ih =>
    intro bytes h st
    cases bytes with
    | nil => simp [md5Loop]
    | cons b rest =>
      rw [md5Loop]
      rw [ih _ (by simp at h ⊢; omega) _]
      rw [← List.foldl_append, List.take_append_drop]

/-- Feeding the archive to the hash in fixed 10240-byte chunks computes the
same digest state as folding the whole byte stream. -/
theorem md5Loop_eq_foldl (step : Nat → Nat → Nat) (st : Nat) (bytes : Bytes) :
    md5Loop step st bytes = bytes.foldl step st :=
  md5Loop_eq_foldl_aux step bytes.length bytes le_rfl st

theorem pySplit_ne_nil (sep : Char) (s : Str) : pySplit sep s ≠ [] := by
  cases s with
  | nil => simp [pySplit]
  | cons c rest =>
    rw [pySplit]
    cases pySplit sep rest with
    | nil => simp
    | cons hd tl => by_cases hc : c = sep <;> simp [hc]

theorem joinStr_cons_cons (sep : Str) (c : Char) (h : Str) (t : List Str) :
    joinStr sep ((c :: h) :: t) = c :: joinStr sep (h :: t) := by
  cases t <;> simp [joinStr]

/-- Joining on the separator undoes the Python split. -/
theorem joinStr_pySplit (sep : Char) (s : Str) : joinStr [sep] (pySplit sep s) = s := by
  induction s with
  | nil => simp [pySplit, joinStr]
  | cons c rest ih =>
    rw [pySplit]
    cases h : pySplit sep rest with
    | nil => exact absurd h (pySplit_ne_nil sep rest)
    | cons hd tl =>
      rw [h] at ih
      by_cases hc : c = sep
      · subst hc
        simp only [if_pos rfl]
        show ([] : Str) ++ [c] ++ joinStr [c] (hd :: tl) = c :: rest
        simpa using ih
      · simp only [if_neg hc]
        rw [joinStr_cons_cons, ih]

/-- A separator-free string splits into the single field it is. -/
theorem pySplit_of_not_mem (sep : Char) (s : Str) (h : sep ∉ s) : pySplit sep s = [s] := by
  induction s with
  | nil => simp [pySplit]
  | cons c rest ih =>
    rw [pySplit, ih (fun hm => h (List.mem_cons_of_mem c hm))]
    have hc : c ≠ sep := fun hc => h (hc ▸ List.mem_cons_self c rest)
    simp [hc]

/-- Splitting a string that starts with a separator-free block followed by a
separator peels off the block as the first field. -/
theorem pySplit_append (sep : Char) (b p : Str) (hb : sep ∉ b) :
    pySplit sep (b ++ sep :: p) = b :: pySplit sep p := by
  induction b with
  | nil =>
    rw [List.nil_append, pySplit]
    cases h : pySplit sep p with
    | nil => exact absurd h (pySplit_ne_nil sep p)
    | cons hd tl => simp [← h]
  | cons c b' ih =>
    have hc : c ≠ sep := fun hc => hb (hc ▸ List.mem_cons_self c b')
    rw [List.cons_append, pySplit, ih (fun hm => hb (List.mem_cons_of_mem c hm))]
    simp [hc]

/-- Splitting a string containing the separator: the first field is the
longest separator-free head, the rest is the split of the tail after the
first separator. -/
theorem pySplit_of_mem (sep : Char) (s : Str) (h : sep ∈ s) :
    pySplit sep s =
      s.takeWhile (· ≠ sep) :: pySplit sep ((s.dropWhile (· ≠ sep)).drop 1) := by
  induction s with
  | nil => simp at h
  | cons c rest ih =>
    by_cases hc : c = sep
    · subst hc
      rw [pySplit]
      cases hp : pySplit c rest with
      | nil => exact absurd hp (pySplit_ne_nil c rest)
      | cons hd tl => simp [hp, List.takeWhile_cons, List.dropWhile_cons]
    · have hm : sep ∈ rest := by
        cases List.mem_cons.mp h with
        | inl he => exact absurd he.symm hc
        | inr hr => exact hr
      rw [pySplit, ih hm]
      simp [List.takeWhile_cons, List.dropWhile_cons, hc]

/-- The split has at least two fields exactly when the separator occurs. -/
theorem pySplit_length_ge_two (sep : Char) (s : Str) :
    2 ≤ (pySplit sep s).length ↔ sep ∈ s := by
  constructor
  · intro hlen
    by_contra hmem
    rw [pySplit_of_not_mem sep s hmem] at hlen
    simp at hlen
  · intro hmem
    rw [pySplit_of_mem sep s hmem]
    have := pySplit_ne_nil sep ((s.dropWhile (· ≠ sep)).drop 1)
    have hpos : 0 < (pySplit sep ((s.dropWhile (· ≠ sep)).drop 1)).length :=
      List.length_pos.mpr this
    simp only [List.length_cons]
    omega

theorem strFind_eq_zero_iff (pat s : Str) : strFind pat s = 0 ↔ startsWith pat s = true := by
  cases s with
  | nil =>
    rw [strFind]
    by_cases h : startsWith pat [] <;> simp [h]
  | cons c rest =>
    rw [strFind]
    by_cases h : startsWith pat (c :: rest)
    · simp [h]
    · simp only [h, if_false, Bool.false_eq_true, iff_false]
      by_cases hr : strFind pat rest < 0 <;> simp [hr] <;> omega

/-- `s.take 3` agreement with the literal `SB:` is the Bool the code tests. -/
theorem startsWith_SB (s : Str) : startsWith (strL "SB:") s = true ↔ s.take 3 = strL "SB:" := by
  have h3 : (strL "SB:").length = 3 := rfl
  rw [startsWith, h3]
  exact decide_eq_true_iff

theorem checkTypes_eq_none_iff (l : List (Str × Str)) :
    checkTypes l = none ↔ ∀ kv ∈ l, kv.2 ∈ validSandboxTypes := by
  induction l with
  | nil => simp [checkTypes]
  | cons kv rest ih =>
    rw [checkTypes]
    by_cases h : kv.2 ∈ validSandboxTypes <;> simp [h, ih]

/-- When no element of `fileList` has an unsupported type, the scan loop
succeeds and produces exactly the present files and the missing paths. -/
theorem scanFiles_eq_ok (fs : FSContent) (l : List SFile)
    (h : ∀ ty, SFile.fobj ty ∉ l) :
    scanFiles fs l = Except.ok (files2UploadOf fs l, missingOf fs l) := by
  induction l with
  | nil => simp [scanFiles, files2UploadOf, missingOf]
  | cons f rest ih =>
    have hrest : ∀ ty, SFile.fobj ty ∉ rest :=
      fun ty hm => h ty (List.mem_cons_of_mem f hm)
    cases f with
    | fstr s =>
      rw [scanFiles]
      by_cases hl : isLfn s
      · simp [hl, ih hrest, files2UploadOf, missingOf, List.filterMap_cons]
      · by_cases hp : fs.pathExists s
        · simp [hl, hp, ih hrest, files2UploadOf, missingOf, List.filterMap_cons, Except.map]
        · simp [hl, hp, ih hrest, files2UploadOf, missingOf, List.filterMap_cons, Except.map]
    | fmem b =>
      rw [scanFiles]
      simp [ih hrest, files2UploadOf, missingOf, List.filterMap_cons, Except.map]
    | fobj ty => exact absurd (List.mem_cons_self _ _) (h ty)

/-- The tail of `uploadFilesAsSandbox` past the size check: digest, send,
and unlink on transfer success (lines 145-160), written out once so runs
that reach it can be equated to it. -/
def sendStage (fs : FSContent) (w : UpWorld) (assignTo : List (Str × Str))
    (tmp : Str) (entries : List TarItem) : SRes × List Eff :=
  let name := canonicalName fs (fs.tarBz2 entries)
  let res : SRes := { w.send tmp name assignTo with sandboxFileName := some tmp }
  if res.ok ∧ ¬ w.unlinkFails tmp then
    (res, [Eff.mkstemp tmp, Eff.writeArchive tmp (fs.tarBz2 entries),
           Eff.sendF tmp name assignTo, Eff.unlink tmp])
  else
    (res, [Eff.mkstemp tmp, Eff.writeArchive tmp (fs.tarBz2 entries),
           Eff.sendF tmp name assignTo])

/-- Evaluation of `uploadFilesAsSandbox` on a run that passes validation,
temp allocation and the size check: the archive is staged, digested and sent
under its canonical name, and the staging file is unlinked exactly when the
transfer succeeded and `os.unlink` did not fail. -/
theorem upload_send_eq (fs : FSContent) (w : UpWorld) (fileList : List SFile)
    (sizeLimit : Nat) (assignTo : List (Str × Str)) (f2u : List SFile)
    (entries : List TarItem) (tmp : Str)
    (h1 : checkTypes assignTo = none)
    (h2 : scanFiles fs fileList = Except.ok (f2u, []))
    (h3 : w.tmpAlloc = Except.ok tmp)
    (h4 : mkEntries fs f2u = Except.ok entries)
    (h5 : ¬ (0 < sizeLimit ∧ sizeLimit < (fs.tarBz2 entries).length)) :
    uploadFilesAsSandbox fs w fileList sizeLimit assignTo =
      sendStage fs w assignTo tmp entries := by
  rw [uploadFilesAsSandbox, h1, h2]
  simp only [h3, h4]
  simp [h4, h5, sendStage]

/-- Evaluation of `uploadFilesAsSandbox` on a run whose archive fails the
size check: the size error is returned carrying the staging path, after only
the staging and archive-writing effects. -/
theorem upload_size_eq (fs : FSContent) (w : UpWorld) (fileList : List SFile)
    (sizeLimit : Nat) (assignTo : List (Str × Str)) (f2u : List SFile)
    (entries : List TarItem) (tmp : Str)
    (h1 : checkTypes assignTo = none)
    (h2 : scanFiles fs fileList = Except.ok (f2u, []))
    (h3 : w.tmpAlloc = Except.ok tmp)
    (h4 : mkEntries fs f2u = Except.ok entries)
    (h5 : 0 < sizeLimit) (h6 : sizeLimit < (fs.tarBz2 entries).length) :
    uploadFilesAsSandbox fs w fileList sizeLimit assignTo =
      ({ sError (strL "Size over the limit") with sandboxFileName := some tmp },
       [Eff.mkstemp tmp, Eff.writeArchive tmp (fs.tarBz2 entries)]) := by
  rw [uploadFilesAsSandbox, h1, h2]
  simp [h3, h4, h5, h6]

/-- The download loop fails fast: with every fetch before `d` succeeding and
the fetch of `d` failing, the loop stops at `d`, returns its error and never
touches the remaining descriptors. -/
theorem dlLoop_failfast (dl : Str → SRes) (pre : List Str) (d : Str) (post : List Str)
    (hpre : ∀ x ∈ pre, (dl x).ok = true) (hd : (dl d).ok = false) :
    dlLoop dl (pre ++ d :: post) = (dl d, pre ++ [d]) := by
  induction pre with
  | nil =>
    rw [List.nil_append, dlLoop]
    simp [hd]
  | cons x rest ih =>
    have hx : (dl x).ok = true := hpre x (List.mem_cons_self x rest)
    rw [List.cons_append, dlLoop]
    rw [ih (fun y hy => hpre y (List.mem_cons_of_mem x hy))]
    simp [hx, consVal, hd]

/-- When every fetch succeeds, the download loop fetches every descriptor in
order and ends `S_OK`. -/
theorem dlLoop_all_ok (dl : Str → SRes) (locs : List Str)
    (h : ∀ x ∈ locs, (dl x).ok = true) :
    (dlLoop dl locs).2 = locs ∧ (dlLoop dl locs).1.ok = true := by
  induction locs with
  | nil => simp [dlLoop, sOK]
  | cons d rest ih =>
    have hd : (dl d).ok = true := h d (List.mem_cons_self d rest)
    have hrest := ih (fun y hy => h y (List.mem_cons_of_mem d hy))
    rw [dlLoop]
    simp only [hd, if_true]
    constructor
    · simp [hrest.1]
    · show (consVal (dl d).value (dlLoop dl rest).1).ok = true
      unfold consVal
      split
      · simp_all
      · exact hrest.2

theorem sentNames_sendStage (fs : FSContent) (w : UpWorld) (assignTo : List (Str × Str))
    (tmp : Str) (entries : List TarItem) :
    sentNames (sendStage fs w assignTo tmp entries).2 =
      [canonicalName fs (fs.tarBz2 entries)] := by
  simp only [sendStage]
  split <;> simp [sentNames]

/-- A concrete content world used to instantiate the theorems: every path
except `missing.txt` and `gone.txt` exists, and the abstract library
functions are small computable stand-ins. -/
def fsW : FSContent where
  pathExists s := !(s = strL "missing.txt" || s = strL "gone.txt")
  realpath s := s
  treeBytes _ := [1, 2]
  encode _ := [3]
  tarBz2 entries := [entries.length, 5]
  md5Step st b := st * 31 + b
  md5Init := 7
  md5Hex n := strL (Nat.repr n)

/-- An upload run world whose transfer succeeds. -/
def wOk : UpWorld where
  tmpAlloc := Except.ok (strL "/tmp/LDSB.a")
  send _ _ _ := sOK RVal.nothing
  unlinkFails _ := false

/-- An upload run world whose transfer fails. -/
def wFail : UpWorld where
  tmpAlloc := Except.ok (strL "/tmp/LDSB.b")
  send _ _ _ := sError (strL "transfer failed")
  unlinkFails _ := false

/-- C1: for valid inputs with the same byte content, two bundling runs over
the same content world (but different temp paths, transfer outcomes and
assignment maps) send the archive under the same canonical name, and that
name is the hex digest of the whole archive byte stream followed by
`.tar.bz2` — the chunked 10240-byte streaming loop computes exactly the
digest of the full stream. -/
theorem uploadFilesAsSandbox_digest_deterministic
    (fs : FSContent) (w1 w2 : UpWorld) (fileList : List SFile)
    (a1 a2 : List (Str × Str)) (f2u : List SFile) (entries : List TarItem) (t1 t2 : Str)
    (h1 : checkTypes a1 = none) (h1' : checkTypes a2 = none)
    (h2 : scanFiles fs fileList = Except.ok (f2u, []))
    (h3 : w1.tmpAlloc = Except.ok t1) (h3' : w2.tmpAlloc = Except.ok t2)
    (h4 : mkEntries fs f2u = Except.ok entries) :
    sentNames (uploadFilesAsSandbox fs w1 fileList 0 a1).2 =
      [fs.md5Hex ((fs.tarBz2 entries).foldl fs.md5Step fs.md5Init) ++ strL ".tar.bz2"] ∧
    sentNames (uploadFilesAsSandbox fs w2 fileList 0 a2).2 =
      sentNames (uploadFilesAsSandbox fs w1 fileList 0 a1).2 := by
  have e1 := upload_send_eq fs w1 fileList 0 a1 f2u entries t1 h1 h2 h3 h4 (by simp)
  have e2 := upload_send_eq fs w2 fileList 0 a2 f2u entries t2 h1' h2 h3' h4 (by simp)
  have hname : canonicalName fs (fs.tarBz2 entries) =
      fs.md5Hex ((fs.tarBz2 entries).foldl fs.md5Step fs.md5Init) ++ strL ".tar.bz2" := by
    rw [canonicalName, md5Loop_eq_foldl]
  refine ⟨?_, ?_⟩
  · rw [e1, sentNames_sendStage, hname]
  · rw [e1, e2, sentNames_sendStage, sentNames_sendStage]

/-- C1 witness: a run with a succeeding transfer and a run with a failing
transfer, over the same content, stage the bundle under the same canonical
name. -/
theorem uploadFilesAsSandbox_digest_deterministic_witness :
    sentNames (uploadFilesAsSandbox fsW wFail [SFile.fstr (strL "a.txt")] 0 []).2 =
      sentNames (uploadFilesAsSandbox fsW wOk [SFile.fstr (strL "a.txt")] 0 []).2 :=
  (uploadFilesAsSandbox_digest_deterministic fsW wOk wFail [SFile.fstr (strL "a.txt")]
    [] [] [SFile.fstr (strL "a.txt")] [TarItem.pathItem (strL "a.txt") [1, 2]]
    (strL "/tmp/LDSB.a") (strL "/tmp/LDSB.b")
    rfl rfl rfl rfl rfl rfl).2

/-- C3: with a positive size limit exceeded by the compressed archive, the
upload returns the size error carrying the staging path under
`SandboxFileName` and the staging file is still present (created, never
unlinked); with limit `0`, the size check never fires and the run proceeds
to the transfer regardless of archive size. -/
theorem uploadFilesAsSandbox_sizeLimit_spec :
    (∀ (fs : FSContent) (w : UpWorld) (fileList : List SFile) (sizeLimit : Nat)
        (assignTo : List (Str × Str)) (f2u : List SFile) (entries : List TarItem) (tmp : Str),
      checkTypes assignTo = none →
      scanFiles fs fileList = Except.ok (f2u, []) →
      w.tmpAlloc = Except.ok tmp →
      mkEntries fs f2u = Except.ok entries →
      0 < sizeLimit → sizeLimit < (fs.tarBz2 entries).length →
      (uploadFilesAsSandbox fs w fileList sizeLimit assignTo).1.ok = false ∧
      (uploadFilesAsSandbox fs w fileList sizeLimit assignTo).1.message = strL "Size over the limit" ∧
      (uploadFilesAsSandbox fs w fileList sizeLimit assignTo).1.sandboxFileName = some tmp ∧
      Eff.mkstemp tmp ∈ (uploadFilesAsSandbox fs w fileList sizeLimit assignTo).2 ∧
      Eff.unlink tmp ∉ (uploadFilesAsSandbox fs w fileList sizeLimit assignTo).2) ∧
    (∀ (fs : FSContent) (w : UpWorld) (fileList : List SFile)
        (assignTo : List (Str × Str)) (f2u : List SFile) (entries : List TarItem) (tmp : Str),
      checkTypes assignTo = none →
      scanFiles fs fileList = Except.ok (f2u, []) →
      w.tmpAlloc = Except.ok tmp →
      mkEntries fs f2u = Except.ok entries →
      Eff.sendF tmp (canonicalName fs (fs.tarBz2 entries)) assignTo ∈
        (uploadFilesAsSandbox fs w fileList 0 assignTo).2) := by
  refine ⟨?_, ?_⟩
  · intro fs w fileList sizeLimit assignTo f2u entries tmp h1 h2 h3 h4 h5 h6
    rw [upload_size_eq fs w fileList sizeLimit assignTo f2u entries tmp h1 h2 h3 h4 h5 h6]
    refine ⟨rfl, rfl, rfl, by simp, by simp⟩
  · intro fs w fileList assignTo f2u entries tmp h1 h2 h3 h4
    rw [upload_send_eq fs w fileList 0 assignTo f2u entries tmp h1 h2 h3 h4 (by simp)]
    simp only [sendStage]
    split <;> simp

/-- C3 witness: a concrete archive of 2 bytes against limit 1 is rejected
with the staging path reported and retained; the same inputs with limit 0 are
sent. -/
theorem uploadFilesAsSandbox_sizeLimit_spec_witness :
    ((uploadFilesAsSandbox fsW wOk [SFile.fstr (strL "a.txt")] 1 []).1.ok = false ∧
     (uploadFilesAsSandbox fsW wOk [SFile.fstr (strL "a.txt")] 1 []).1.message = strL "Size over the limit" ∧
     (uploadFilesAsSandbox fsW wOk [SFile.fstr (strL "a.txt")] 1 []).1.sandboxFileName = some (strL "/tmp/LDSB.a") ∧
     Eff.mkstemp (strL "/tmp/LDSB.a") ∈ (uploadFilesAsSandbox fsW wOk [SFile.fstr (strL "a.txt")] 1 []).2 ∧
     Eff.unlink (strL "/tmp/LDSB.a") ∉ (uploadFilesAsSandbox fsW wOk [SFile.fstr (strL "a.txt")] 1 []).2) ∧
    Eff.sendF (strL "/tmp/LDSB.a") (canonicalName fsW (fsW.tarBz2 [TarItem.pathItem (strL "a.txt") [1, 2]])) [] ∈
      (uploadFilesAsSandbox fsW wOk [SFile.fstr (strL "a.txt")] 0 []).2 :=
  ⟨uploadFilesAsSandbox_sizeLimit_spec.1 fsW wOk [SFile.fstr (strL "a.txt")] 1 []
      [SFile.fstr (strL "a.txt")] [TarItem.pathItem (strL "a.txt") [1, 2]] (strL "/tmp/LDSB.a")
      rfl rfl rfl rfl (by decide) (by decide),
   uploadFilesAsSandbox_sizeLimit_spec.2 fsW wOk [SFile.fstr (strL "a.txt")] []
      [SFile.fstr (strL "a.txt")] [TarItem.pathItem (strL "a.txt") [1, 2]] (strL "/tmp/LDSB.a")
      rfl rfl rfl rfl⟩

/-- A concrete assignment world served by the remote path. -/
def asgW : AsgWorld where
  smdbActive := false
  smdbAssignRes _ _ _ _ := sOK RVal.nothing
  rpcAssignRes _ _ _ _ := sOK RVal.nothing

/-- C6: if any supplied sandbox type is outside the closed set
`{Input, Output}`, both `uploadFilesAsSandbox` and `assignSandboxesToJob`
return the invalid-type error with an empty effect trace: no staging file,
no transfer, no backend call, local or remote. -/
theorem invalidSandboxType_failfast :
    (∀ (fs : FSContent) (w : UpWorld) (fileList : List SFile) (sizeLimit : Nat)
        (assignTo : List (Str × Str)),
      (∃ kv ∈ assignTo, kv.2 ∉ validSandboxTypes) →
      ∃ t, uploadFilesAsSandbox fs w fileList sizeLimit assignTo =
        (sError (strL "Invalid sandbox type " ++ t), [])) ∧
    (∀ (w : AsgWorld) (jobId : Nat) (sbList : List (Str × Str)) (ownerName ownerGroup : Str),
      (∃ kv ∈ sbList, kv.2 ∉ validSandboxTypes) →
      ∃ t, assignSandboxesToJob w jobId sbList ownerName ownerGroup =
        (sError (strL "Invalid Sandbox type " ++ t), [])) := by
  refine ⟨?_, ?_⟩
  · intro fs w fileList sizeLimit assignTo hbad
    cases h : checkTypes assignTo with
    | none =>
      obtain ⟨kv, hmem, hnot⟩ := hbad
      exact absurd ((checkTypes_eq_none_iff assignTo).mp h kv hmem) hnot
    | some t => exact ⟨t, by rw [uploadFilesAsSandbox, h]⟩
  · intro w jobId sbList ownerName ownerGroup hbad
    cases h : checkTypes sbList with
    | none =>
      obtain ⟨kv, hmem, hnot⟩ := hbad
      exact absurd ((checkTypes_eq_none_iff sbList).mp h kv hmem) hnot
    | some t => exact ⟨t, by rw [assignSandboxesToJob, h]⟩

/-- C6 witness: the type `Bogus` is rejected by both entry points with no
side effects. -/
theorem invalidSandboxType_failfast_witness :
    (∃ t, uploadFilesAsSandbox fsW wOk [SFile.fstr (strL "a.txt")] 0
        [(strL "Job:5", strL "Bogus")] = (sError (strL "Invalid sandbox type " ++ t), [])) ∧
    (∃ t, assignSandboxesToJob asgW 5 [(strL "SB:se|pfn", strL "Bogus")] [] [] =
        (sError (strL "Invalid Sandbox type " ++ t), [])) :=
  ⟨invalidSandboxType_failfast.1 fsW wOk [SFile.fstr (strL "a.txt")] 0 _
      ⟨(strL "Job:5", strL "Bogus"), by decide, by decide⟩,
   invalidSandboxType_failfast.2 asgW 5 _ [] []
      ⟨(strL "SB:se|pfn", strL "Bogus"), by decide, by decide⟩⟩

/-- C9: when every element of `fileList` is a supported shape and some
referenced local paths are missing, the upload returns one aggregated
`Failed to locate files` error naming every missing path, with no side
effects — it does not stop at the first missing path. -/
theorem uploadFilesAsSandbox_missing_aggregated
    (fs : FSContent) (w : UpWorld) (fileList : List SFile) (sizeLimit : Nat)
    (assignTo : List (Str × Str))
    (hA : checkTypes assignTo = none)
    (hobj : ∀ ty, SFile.fobj ty ∉ fileList)
    (hmiss : missingOf fs fileList ≠ []) :
    uploadFilesAsSandbox fs w fileList sizeLimit assignTo =
      (sError (strL "Failed to locate files: " ++ joinStr (strL ", ") (missingOf fs fileList)),
       []) := by
  rw [uploadFilesAsSandbox, hA, scanFiles_eq_ok fs fileList hobj]
  simp [hmiss]

/-- C9 witness: two missing paths among an existing one are reported
together in a single error, in scan order. -/
theorem uploadFilesAsSandbox_missing_aggregated_witness :
    uploadFilesAsSandbox fsW wOk
        [SFile.fstr (strL "missing.txt"), SFile.fstr (strL "a.txt"), SFile.fstr (strL "gone.txt")]
        0 [] =
      (sError (strL "Failed to locate files: missing.txt, gone.txt"), []) :=
  (uploadFilesAsSandbox_missing_aggregated fsW wOk
      [SFile.fstr (strL "missing.txt"), SFile.fstr (strL "a.txt"), SFile.fstr (strL "gone.txt")]
      0 [] rfl (by intro ty h; simp at h) (by decide)).trans (by rfl)

/-- C10: when every element of `fileList` is a string with the
case-insensitive `lfn:` head, the scan silently drops them all: no
existence check can fail, no error is reported, the archive is built from an
empty entry list and the run proceeds to the transfer of that empty
archive. -/
theorem uploadFilesAsSandbox_lfn_skipped
    (fs : FSContent) (w : UpWorld) (fileList : List SFile) (sizeLimit : Nat)
    (assignTo : List (Str × Str)) (tmp : Str)
    (hA : checkTypes assignTo = none)
    (hall : ∀ f ∈ fileList, ∃ s, f = SFile.fstr s ∧ isLfn s = true)
    (h3 : w.tmpAlloc = Except.ok tmp)
    (hsz : ¬ (0 < sizeLimit ∧ sizeLimit < (fs.tarBz2 []).length)) :
    uploadFilesAsSandbox fs w fileList sizeLimit assignTo = sendStage fs w assignTo tmp [] ∧
    Eff.writeArchive tmp (fs.tarBz2 []) ∈ (uploadFilesAsSandbox fs w fileList sizeLimit assignTo).2 ∧
    Eff.sendF tmp (canonicalName fs (fs.tarBz2 [])) assignTo ∈
      (uploadFilesAsSandbox fs w fileList sizeLimit assignTo).2 := by
  have hobj : ∀ ty, SFile.fobj ty ∉ fileList := by
    intro ty hmem
    obtain ⟨s, hs, _⟩ := hall _ hmem
    exact SFile.noConfusion hs
  have hscan : scanFiles fs fileList = Except.ok ([], []) := by
    rw [scanFiles_eq_ok fs fileList hobj]
    have h2u : files2UploadOf fs fileList = [] := by
      rw [files2UploadOf, List.filterMap_eq_nil_iff]
      intro f hmem
      obtain ⟨s, hs, hl⟩ := hall f hmem
      subst hs
      simp [hl]
    have hm : missingOf fs fileList = [] := by
      rw [missingOf, List.filterMap_eq_nil_iff]
      intro f hmem
      obtain ⟨s, hs, hl⟩ := hall f hmem
      subst hs
      simp [hl]
    rw [h2u, hm]
  have e := upload_send_eq fs w fileList sizeLimit assignTo [] [] tmp hA hscan h3 rfl hsz
  refine ⟨e, ?_, ?_⟩ <;> rw [e] <;> simp only [sendStage] <;> split <;> simp

/-- C10 witness: a file list of two LFN strings (mixed case) produces an
empty archive that is sent without any error. -/
theorem uploadFilesAsSandbox_lfn_skipped_witness :
    uploadFilesAsSandbox fsW wOk [SFile.fstr (strL "lfn:/grid/a"), SFile.fstr (strL "LFN:/grid/b")]
        0 [] = sendStage fsW wOk [] (strL "/tmp/LDSB.a") [] ∧
    Eff.writeArchive (strL "/tmp/LDSB.a") (fsW.tarBz2 []) ∈
      (uploadFilesAsSandbox fsW wOk [SFile.fstr (strL "lfn:/grid/a"), SFile.fstr (strL "LFN:/grid/b")] 0 []).2 ∧
    Eff.sendF (strL "/tmp/LDSB.a") (canonicalName fsW (fsW.tarBz2 [])) [] ∈
      (uploadFilesAsSandbox fsW wOk [SFile.fstr (strL "lfn:/grid/a"), SFile.fstr (strL "LFN:/grid/b")] 0 []).2 :=
  uploadFilesAsSandbox_lfn_skipped fsW wOk
    [SFile.fstr (strL "lfn:/grid/a"), SFile.fstr (strL "LFN:/grid/b")] 0 [] (strL "/tmp/LDSB.a")
    rfl
    (by
      intro f hf
      simp only [List.mem_cons, List.not_mem_nil, or_false] at hf
      rcases hf with h | h
      · exact ⟨strL "lfn:/grid/a", h, by decide⟩
      · exact ⟨strL "LFN:/grid/b", h, by decide⟩)
    rfl (by decide)

theorem take_len_append (l1 l2 : Str) : (l1 ++ l2).take l1.length = l1 := by
  induction l1 with
  | nil => simp
  | cons c rest ih => simp [ih]

theorem drop_len_append (l1 l2 : Str) : (l1 ++ l2).drop l1.length = l2 := by
  induction l1 with
  | nil => simp
  | cons c rest ih => simp [ih]

/-- The `sbLocation.find("SB:") != 0` test of line 169 holds exactly when
the first three characters are the literal `SB:`. -/
theorem strFind_SB_eq_zero_iff (s : Str) :
    strFind (strL "SB:") s = 0 ↔ s.take 3 = strL "SB:" :=
  (strFind_eq_zero_iff _ s).trans (startsWith_SB s)

/-- C4: the location parse of `downloadSandbox` fails with the invalid-URL
error unless the descriptor starts with the literal `SB:` and the remainder
contains a bar; on success the backend identifier is everything between the
prefix and the first bar and the physical name is everything after the first
bar; in particular `SBSEName|path` is rejected. -/
theorem parseSBLocation_spec :
    (∀ s : Str, ¬ (s.take 3 = strL "SB:" ∧ '|' ∈ s.drop 3) →
      parseSBLocation s = Except.error (strL "Invalid sandbox URL")) ∧
    (∀ s : Str, s.take 3 = strL "SB:" → '|' ∈ s.drop 3 →
      parseSBLocation s =
        Except.ok ((s.drop 3).takeWhile (· ≠ '|'), ((s.drop 3).dropWhile (· ≠ '|')).drop 1)) ∧
    parseSBLocation (strL "SBSEName|path") = Except.error (strL "Invalid sandbox URL") := by
  refine ⟨?_, ?_, rfl⟩
  · intro s h
    by_cases hsb : s.take 3 = strL "SB:"
    · have hbar : '|' ∉ s.drop 3 := fun hb => h ⟨hsb, hb⟩
      rw [parseSBLocation, if_neg (not_not.mpr ((strFind_SB_eq_zero_iff s).mpr hsb))]
      rw [pySplit_of_not_mem _ _ hbar]
      simp
    · have hc : strFind (strL "SB:") s ≠ 0 := fun h0 =>
        hsb ((strFind_SB_eq_zero_iff s).mp h0)
      rw [parseSBLocation, if_pos hc]
  · intro s hsb hbar
    rw [parseSBLocation, if_neg (not_not.mpr ((strFind_SB_eq_zero_iff s).mpr hsb))]
    rw [pySplit_of_mem _ _ hbar]
    have hlen : ¬ ((((s.drop 3).takeWhile (· ≠ '|')) ::
        pySplit '|' (((s.drop 3).dropWhile (· ≠ '|')).drop 1)).length < 2) := by
      have hpos := List.length_pos.mpr
        (pySplit_ne_nil '|' (((s.drop 3).dropWhile (· ≠ '|')).drop 1))
      simp only [List.length_cons]
      omega
    rw [if_neg hlen]
    have hj : strL "|" = ['|'] := rfl
    simp only [List.headI, List.tail_cons, hj, joinStr_pySplit]

/-- C4 witness: a well-formed descriptor with a bar inside the physical name
parses into its components; a descriptor without the colon is rejected. -/
theorem parseSBLocation_spec_witness :
    parseSBLocation (strL "SB:SE|a|b") = Except.ok (strL "SE", strL "a|b") ∧
    parseSBLocation (strL "XSE|p") = Except.error (strL "Invalid sandbox URL") :=
  ⟨(parseSBLocation_spec.2.1 (strL "SB:SE|a|b") (by decide) (by decide)).trans rfl,
   parseSBLocation_spec.1 (strL "XSE|p") (by decide)⟩

/-- C5: for a backend identifier free of bars, parsing the formatted
descriptor `SB:<b>|<p>` recovers exactly the pair — parse is a left inverse
of format, even when the physical name itself contains bars. -/
theorem parseSBLocation_roundtrip (b p : Str) (hb : '|' ∉ b) :
    parseSBLocation (strL "SB:" ++ b ++ '|' :: p) = Except.ok (b, p) := by
  have hsb : (strL "SB:" ++ b ++ '|' :: p).take 3 = strL "SB:" := by
    rw [List.append_assoc]
    exact take_len_append (strL "SB:") (b ++ '|' :: p)
  have hdrop : (strL "SB:" ++ b ++ '|' :: p).drop 3 = b ++ '|' :: p := by
    rw [List.append_assoc]
    exact drop_len_append (strL "SB:") (b ++ '|' :: p)
  rw [parseSBLocation, if_neg (not_not.mpr ((strFind_SB_eq_zero_iff _).mpr hsb))]
  rw [hdrop, pySplit_append _ _ _ hb]
  have hlen : ¬ ((b :: pySplit '|' p).length < 2) := by
    have hpos := List.length_pos.mpr (pySplit_ne_nil '|' p)
    simp only [List.length_cons]
    omega
  rw [if_neg hlen]
  have hj : strL "|" = ['|'] := rfl
  simp only [List.headI, List.tail_cons, hj, joinStr_pySplit]

/-- C5 witness: the round trip at a concrete backend and a physical name
containing a bar. -/
theorem parseSBLocation_roundtrip_witness :
    parseSBLocation (strL "SB:" ++ strL "SE1" ++ '|' :: strL "dir|f.tar.bz2") =
      Except.ok (strL "SE1", strL "dir|f.tar.bz2") :=
  parseSBLocation_roundtrip (strL "SE1") (strL "dir|f.tar.bz2") (by decide)

/-- C7: with in-memory retrieval, `downloadSandboxForJob` fetches exactly
the last descriptor assigned for the requested type and nothing else; with
on-disk retrieval it fetches the descriptors in assignment order and stops
at the first failing fetch, returning that error without touching the
remaining descriptors — and when all fetches succeed, every descriptor is
fetched in order. -/
theorem downloadSandboxForJob_fetch_policy :
    (∀ (rpcGet : Str → Except Str (List (Str × List Str))) (dl : Str → SRes)
        (jobId : Nat) (sbType : Str) (sbDict : List (Str × List Str))
        (locs : List Str) (last : Str),
      rpcGet (strL "Job:" ++ strL (Nat.repr jobId)) = Except.ok sbDict →
      sbDict.lookup sbType = some locs → locs.getLast? = some last →
      downloadSandboxForJob rpcGet dl jobId sbType true = (dl last, [last])) ∧
    (∀ (rpcGet : Str → Except Str (List (Str × List Str))) (dl : Str → SRes)
        (jobId : Nat) (sbType : Str) (sbDict : List (Str × List Str))
        (pre : List Str) (d : Str) (post : List Str),
      rpcGet (strL "Job:" ++ strL (Nat.repr jobId)) = Except.ok sbDict →
      sbDict.lookup sbType = some (pre ++ d :: post) →
      (∀ x ∈ pre, (dl x).ok = true) → (dl d).ok = false →
      downloadSandboxForJob rpcGet dl jobId sbType false = (dl d, pre ++ [d])) ∧
    (∀ (rpcGet : Str → Except Str (List (Str × List Str))) (dl : Str → SRes)
        (jobId : Nat) (sbType : Str) (sbDict : List (Str × List Str)) (locs : List Str),
      rpcGet (strL "Job:" ++ strL (Nat.repr jobId)) = Except.ok sbDict →
      sbDict.lookup sbType = some locs →
      (∀ x ∈ locs, (dl x).ok = true) →
      (downloadSandboxForJob rpcGet dl jobId sbType false).2 = locs) := by
  refine ⟨?_, ?_, ?_⟩
  · intro rpcGet dl jobId sbType sbDict locs last h1 h2 h3
    rw [downloadSandboxForJob, h1]
    simp [h2, h3]
  · intro rpcGet dl jobId sbType sbDict pre d post h1 h2 hpre hd
    rw [downloadSandboxForJob, h1]
    simp only [h2, if_false, Bool.false_eq_true, if_neg]
    simpa using dlLoop_failfast dl pre d post hpre hd
  · intro rpcGet dl jobId sbType sbDict locs h1 h2 hok
    rw [downloadSandboxForJob, h1]
    simpa [h2] using (dlLoop_all_ok dl locs hok).1

/-- A concrete assignment registry answer for the fetch-policy witness. -/
def rpcGetW : Str → Except Str (List (Str × List Str)) := fun _ =>
  Except.ok [(strL "Input", [strL "d1", strL "d2"])]

/-- A concrete fetch oracle failing on descriptor `d2`. -/
def dlW : Str → SRes := fun d =>
  if d = strL "d2" then sError (strL "fetch failed") else sOK RVal.nothing

/-- A concrete fetch oracle that always succeeds. -/
def dlOkW : Str → SRes := fun _ => sOK (RVal.strv (strL "loc"))

/-- C7 witness: in-memory retrieval fetches only `d2` (the newest); on-disk
retrieval stops at the failing `d2` after fetching `d1`; with a succeeding
oracle both descriptors are fetched in order. -/
theorem downloadSandboxForJob_fetch_policy_witness :
    downloadSandboxForJob rpcGetW dlW 7 (strL "Input") true = (dlW (strL "d2"), [strL "d2"]) ∧
    downloadSandboxForJob rpcGetW dlW 7 (strL "Input") false =
      (dlW (strL "d2"), [strL "d1", strL "d2"]) ∧
    (downloadSandboxForJob rpcGetW dlOkW 7 (strL "Input") false).2 = [strL "d1", strL "d2"] :=
  ⟨downloadSandboxForJob_fetch_policy.1 rpcGetW dlW 7 (strL "Input")
      [(strL "Input", [strL "d1", strL "d2"])] [strL "d1", strL "d2"] (strL "d2")
      rfl (by decide) (by decide),
   by
    have h := downloadSandboxForJob_fetch_policy.2.1 rpcGetW dlW 7 (strL "Input")
      [(strL "Input", [strL "d1", strL "d2"])] [strL "d1"] (strL "d2") []
      rfl (by decide) (by decide) (by decide)
    simpa using h,
   downloadSandboxForJob_fetch_policy.2.2 rpcGetW dlOkW 7 (strL "Input")
      [(strL "Input", [strL "d1", strL "d2"])] [strL "d1", strL "d2"]
      rfl (by decide) (by decide)⟩

/-- C8: resolving through the spec-modelled remote registry, a job id absent
from the registry yields the entity-not-found error, while a registered job
without a sandbox of the requested type yields the `No <type> sandbox found`
domain error; the two error messages are always distinct, so the two cases
are distinguished as different error results. -/
theorem downloadSandboxForJob_resolve_distinguished :
    (∀ (registry : List (Str × List (Str × List Str))) (dl : Str → SRes)
        (jobId : Nat) (sbType : Str),
      registry.lookup (strL "Job:" ++ strL (Nat.repr jobId)) = none →
      downloadSandboxForJob (getSandboxesAssignedToEntity registry) dl jobId sbType false =
        (sError (strL "Entity not found"), [])) ∧
    (∀ (registry : List (Str × List (Str × List Str))) (dl : Str → SRes)
        (jobId : Nat) (sbType : Str) (sbDict : List (Str × List Str)),
      registry.lookup (strL "Job:" ++ strL (Nat.repr jobId)) = some sbDict →
      sbDict.lookup sbType = none →
      downloadSandboxForJob (getSandboxesAssignedToEntity registry) dl jobId sbType false =
        (sError (noSandboxMsg sbType jobId), [])) ∧
    (∀ (sbType : Str) (jobId : Nat), noSandboxMsg sbType jobId ≠ strL "Entity not found") := by
  refine ⟨?_, ?_, ?_⟩
  · intro registry dl jobId sbType h
    rw [downloadSandboxForJob, getSandboxesAssignedToEntity, h]
  · intro registry dl jobId sbType sbDict h1 h2
    rw [downloadSandboxForJob, getSandboxesAssignedToEntity, h1]
    simp [h2]
  · intro sbType jobId h
    have h2 : (some 'N' : Option Char) = some 'E' :=
      calc (some 'N' : Option Char) = (noSandboxMsg sbType jobId).head? := rfl
        _ = (strL "Entity not found").head? := congrArg List.head? h
        _ = some 'E' := rfl
    exact absurd h2 (by decide)

/-- C8 witness: job 42 is absent from an empty registry; job 42 registered
with only an Output sandbox yields the no-Input-sandbox error; the two
messages differ. -/
theorem downloadSandboxForJob_resolve_distinguished_witness :
    downloadSandboxForJob (getSandboxesAssignedToEntity []) dlOkW 42 (strL "Input") false =
      (sError (strL "Entity not found"), []) ∧
    downloadSandboxForJob
        (getSandboxesAssignedToEntity [(strL "Job:42", [(strL "Output", [strL "d1"])])])
        dlOkW 42 (strL "Input") false =
      (sError (noSandboxMsg (strL "Input") 42), []) ∧
    noSandboxMsg (strL "Input") 42 ≠ strL "Entity not found" :=
  ⟨downloadSandboxForJob_resolve_distinguished.1 [] dlOkW 42 (strL "Input") (by decide),
   downloadSandboxForJob_resolve_distinguished.2.1
      [(strL "Job:42", [(strL "Output", [strL "d1"])])] dlOkW 42 (strL "Input")
      [(strL "Output", [strL "d1"])] (by decide) (by decide),
   downloadSandboxForJob_resolve_distinguished.2.2 (strL "Input") 42⟩

/-- C2 counterexample: a run of `uploadFilesAsSandbox` whose transfer fails
is an exit path that is not the failed size check, yet the staging temp file
is created and never deleted — refuting deletion on every exit path with the
size check as the single exception. -/
theorem tempResource_cleanup_counterexample :
    (uploadFilesAsSandbox fsW wFail [SFile.fstr (strL "a.txt")] 0 []).1.ok = false ∧
    (uploadFilesAsSandbox fsW wFail [SFile.fstr (strL "a.txt")] 0 []).1.message ≠
      strL "Size over the limit" ∧
    Eff.mkstemp (strL "/tmp/LDSB.b") ∈
      (uploadFilesAsSandbox fsW wFail [SFile.fstr (strL "a.txt")] 0 []).2 ∧
    Eff.unlink (strL "/tmp/LDSB.b") ∉
      (uploadFilesAsSandbox fsW wFail [SFile.fstr (strL "a.txt")] 0 []).2 := by
  decide

/-- C2 amended: the staging temp file of `uploadFilesAsSandbox` is deleted
only on a successful transfer (when `os.unlink` does not itself fail); it is
retained, with its path returned under `SandboxFileName`, both after a
failed size check and after a failed transfer.  The temp directory of
`downloadSandbox` is deleted on both outcomes of the in-memory read and
(best-effort) after extraction, but it is retained when the storage-element
fetch fails and when unpacking is not requested (the archive path inside it
is the returned value). -/
theorem tempResource_cleanup_amended :
    (∀ (fs : FSContent) (w : UpWorld) (fileList : List SFile) (sizeLimit : Nat)
        (assignTo : List (Str × Str)) (f2u : List SFile) (entries : List TarItem) (tmp : Str),
      checkTypes assignTo = none →
      scanFiles fs fileList = Except.ok (f2u, []) →
      w.tmpAlloc = Except.ok tmp →
      mkEntries fs f2u = Except.ok entries →
      ¬ (0 < sizeLimit ∧ sizeLimit < (fs.tarBz2 entries).length) →
      (w.send tmp (canonicalName fs (fs.tarBz2 entries)) assignTo).ok = true →
      w.unlinkFails tmp = false →
      Eff.unlink tmp ∈ (uploadFilesAsSandbox fs w fileList sizeLimit assignTo).2) ∧
    (∀ (fs : FSContent) (w : UpWorld) (fileList : List SFile) (sizeLimit : Nat)
        (assignTo : List (Str × Str)) (f2u : List SFile) (entries : List TarItem) (tmp : Str),
      checkTypes assignTo = none →
      scanFiles fs fileList = Except.ok (f2u, []) →
      w.tmpAlloc = Except.ok tmp →
      mkEntries fs f2u = Except.ok entries →
      0 < sizeLimit → sizeLimit < (fs.tarBz2 entries).length →
      Eff.unlink tmp ∉ (uploadFilesAsSandbox fs w fileList sizeLimit assignTo).2 ∧
      (uploadFilesAsSandbox fs w fileList sizeLimit assignTo).1.sandboxFileName = some tmp) ∧
    (∀ (fs : FSContent) (w : UpWorld) (fileList : List SFile) (sizeLimit : Nat)
        (assignTo : List (Str × Str)) (f2u : List SFile) (entries : List TarItem) (tmp : Str),
      checkTypes assignTo = none →
      scanFiles fs fileList = Except.ok (f2u, []) →
      w.tmpAlloc = Except.ok tmp →
      mkEntries fs f2u = Except.ok entries →
      ¬ (0 < sizeLimit ∧ sizeLimit < (fs.tarBz2 entries).length) →
      (w.send tmp (canonicalName fs (fs.tarBz2 entries)) assignTo).ok = false →
      Eff.unlink tmp ∉ (uploadFilesAsSandbox fs w fileList sizeLimit assignTo).2 ∧
      (uploadFilesAsSandbox fs w fileList sizeLimit assignTo).1.sandboxFileName = some tmp) ∧
    (∀ (w : DlWorld) (sbLoc destDir : Str) (unpack : Bool) (se pfn d : Str),
      parseSBLocation sbLoc = Except.ok (se, pfn) →
      w.mkdtemp = Except.ok d →
      (w.getFile se pfn d).1 = true →
      Eff.unlink (d ++ '/' :: basename pfn) ∈ (downloadSandbox w sbLoc destDir true unpack).2 ∧
      Eff.rmdir d ∈ (downloadSandbox w sbLoc destDir true unpack).2) ∧
    (∀ (w : DlWorld) (sbLoc destDir : Str) (inMemory unpack : Bool) (se pfn d : Str),
      parseSBLocation sbLoc = Except.ok (se, pfn) →
      w.mkdtemp = Except.ok d →
      (w.getFile se pfn d).1 = false →
      Eff.rmdir d ∉ (downloadSandbox w sbLoc destDir inMemory unpack).2 ∧
      (downloadSandbox w sbLoc destDir inMemory unpack).1 =
        sError (w.getFile se pfn d).2) ∧
    (∀ (w : DlWorld) (sbLoc destDir : Str) (se pfn d : Str),
      parseSBLocation sbLoc = Except.ok (se, pfn) →
      w.mkdtemp = Except.ok d →
      (w.getFile se pfn d).1 = true →
      Eff.rmdir d ∉ (downloadSandbox w sbLoc destDir false false).2 ∧
      (downloadSandbox w sbLoc destDir false false).1 =
        sOK (RVal.strv (d ++ '/' :: basename pfn))) ∧
    (∀ (w : DlWorld) (sbLoc destDir : Str) (se pfn d : Str),
      parseSBLocation sbLoc = Except.ok (se, pfn) →
      w.mkdtemp = Except.ok d →
      (w.getFile se pfn d).1 = true →
      w.cleanupFails = false →
      Eff.unlink (d ++ '/' :: basename pfn) ∈ (downloadSandbox w sbLoc destDir false true).2 ∧
      Eff.rmdir d ∈ (downloadSandbox w sbLoc destDir false true).2) := by
  refine ⟨?_, ?_, ?_, ?_, ?_, ?_, ?_⟩
  · intro fs w fileList sizeLimit assignTo f2u entries tmp h1 h2 h3 h4 h5 hok hul
    rw [upload_send_eq fs w fileList sizeLimit assignTo f2u entries tmp h1 h2 h3 h4 h5]
    simp [sendStage, hok, hul]
  · intro fs w fileList sizeLimit assignTo f2u entries tmp h1 h2 h3 h4 h5 h6
    rw [upload_size_eq fs w fileList sizeLimit assignTo f2u entries tmp h1 h2 h3 h4 h5 h6]
    exact ⟨by simp, rfl⟩
  · intro fs w fileList sizeLimit assignTo f2u entries tmp h1 h2 h3 h4 h5 hfail
    rw [upload_send_eq fs w fileList sizeLimit assignTo f2u entries tmp h1 h2 h3 h4 h5]
    simp [sendStage, hfail]
  · intro w sbLoc destDir unpack se pfn d hp hd hg
    rw [downloadSandbox, hp]
    simp only [hd]
    simp only [hg]
    cases hr : w.readBytes (d ++ '/' :: basename pfn) <;> simp [hr]
  · intro w sbLoc destDir inMemory unpack se pfn d hp hd hg
    rw [downloadSandbox, hp]
    simp only [hd]
    simp [hg]
  · intro w sbLoc destDir se pfn d hp hd hg
    rw [downloadSandbox, hp]
    simp only [hd]
    by_cases hdd : destDir = ([] : Str) <;> simp [hg, hdd]
  · intro w sbLoc destDir se pfn d hp hd hg hcf
    rw [downloadSandbox, hp]
    simp only [hd]
    cases hx : w.extractTar (d ++ '/' :: basename pfn)
        (if destDir = ([] : Str) then w.cwd else destDir) <;>
      by_cases hdd : destDir = ([] : Str) <;> simp [hg, hcf, hdd, hx]

/-- A concrete download world whose fetch succeeds. -/
def dwOk : DlWorld where
  mkdtemp := Except.ok (strL "/tmp/TMSB.a")
  getFile _ _ _ := (true, [])
  readBytes _ := Except.error (strL "OSError(5)")
  cwd := strL "/work"
  extractTar _ _ := Except.ok 10
  cleanupFails := false

/-- A concrete download world whose fetch fails. -/
def dwFail : DlWorld where
  mkdtemp := Except.ok (strL "/tmp/TMSB.b")
  getFile _ _ _ := (false, strL "No such file")
  readBytes _ := Except.ok [9]
  cwd := strL "/work"
  extractTar _ _ := Except.ok 10
  cleanupFails := false

/-- C2 amended witness: concrete runs through the retained and released
paths — a failing transfer retains the staging file, a failing in-memory
read still removes the download temp dir, a failed fetch retains it. -/
theorem tempResource_cleanup_amended_witness :
    (Eff.unlink (strL "/tmp/LDSB.a") ∈
      (uploadFilesAsSandbox fsW wOk [SFile.fstr (strL "a.txt")] 0 []).2) ∧
    (Eff.unlink (strL "/tmp/LDSB.b") ∉
      (uploadFilesAsSandbox fsW wFail [SFile.fstr (strL "a.txt")] 0 []).2 ∧
     (uploadFilesAsSandbox fsW wFail [SFile.fstr (strL "a.txt")] 0 []).1.sandboxFileName =
       some (strL "/tmp/LDSB.b")) ∧
    (Eff.unlink (strL "/tmp/TMSB.a" ++ '/' :: basename (strL "pfn.tar.bz2")) ∈
      (downloadSandbox dwOk (strL "SB:se|pfn.tar.bz2") [] true true).2 ∧
     Eff.rmdir (strL "/tmp/TMSB.a") ∈
      (downloadSandbox dwOk (strL "SB:se|pfn.tar.bz2") [] true true).2) ∧
    (Eff.rmdir (strL "/tmp/TMSB.b") ∉
      (downloadSandbox dwFail (strL "SB:se|pfn.tar.bz2") [] false true).2) :=
  ⟨tempResource_cleanup_amended.1 fsW wOk [SFile.fstr (strL "a.txt")] 0 []
      [SFile.fstr (strL "a.txt")] [TarItem.pathItem (strL "a.txt") [1, 2]] (strL "/tmp/LDSB.a")
      rfl rfl rfl rfl (by decide) (by decide) (by decide),
   tempResource_cleanup_amended.2.2.1 fsW wFail [SFile.fstr (strL "a.txt")] 0 []
      [SFile.fstr (strL "a.txt")] [TarItem.pathItem (strL "a.txt") [1, 2]] (strL "/tmp/LDSB.b")
      rfl rfl rfl rfl (by decide) (by decide),
   tempResource_cleanup_amended.2.2.2.1 dwOk (strL "SB:se|pfn.tar.bz2") [] true
      (strL "se") (strL "pfn.tar.bz2") (strL "/tmp/TMSB.a") rfl rfl (by decide),
   (tempResource_cleanup_amended.2.2.2.2.1 dwFail (strL "SB:se|pfn.tar.bz2") [] false true
      (strL "se") (strL "pfn.tar.bz2") (strL "/tmp/TMSB.b") rfl rfl (by decide)).1⟩

end SandboxStore
